import Mathlib

/-!
Verification of the ERC4008 contract-indexer ingestion pipeline
(`src/indexer/src/services/indexer.js`, `storage.js`, `blockchain.js`,
`utils/helpers.js`, and `src/config/database.js`).

The JavaScript source is shallowly embedded as executable Lean
definitions: the SQLite store is a record of row lists with
`INSERT OR REPLACE` modelled faithfully against the declared
PRIMARY KEY / UNIQUE constraints of `createTables`; the chain RPC
layer and injected store failures are oracles (plain functions), and
asynchronous control flow is serialised exactly as the `await`
sequence of the source lays it out.  `Promise.allSettled` becomes a
list of `Option` outcomes; a thrown/propagated error becomes the
`Except.error` branch carrying the store as already written (SQLite
autocommit: statements that already ran are NOT rolled back when a
later one throws).
-/

namespace ErcIndexer

/-- JavaScript `String.prototype.toLowerCase()` restricted to the
ASCII addresses/hashes the indexer handles (written over the
character list so it evaluates by kernel reduction). -/
def lowerStr (s : String) : String := ⟨s.data.map Char.toLower⟩

/-- A transaction as returned by `provider.getBlock(n, true)` and
consumed by `processTransactions` / `storeTransaction`.  `to?` is the
possibly-null `tx.to`; `data` is the input payload (`'0x'` when
empty). -/
structure Tx where
  hash : String
  to? : Option String
  fromAddr : String
  value : Int
  gasPrice : Int
  gasLimit : Int
  nonce : Int
  data : String
  index : Int
deriving DecidableEq

/-- A block with its transactions, as fetched by
`blockchainService.getBlock(blockNumber, true)`. -/
structure Block where
  number : Int
  hash : String
  parentHash : String
  timestamp : Int
  gasLimit : Int
  gasUsed : Int
  miner : String
  difficulty : Option Int
  transactions : List Tx
deriving DecidableEq

/-- A transaction receipt (`provider.getTransactionReceipt`). -/
structure Receipt where
  status : Int
  gasUsed : Int
deriving DecidableEq

/-- An event log as returned by `provider.getLogs`. -/
structure Log where
  transactionHash : String
  blockNumber : Int
  blockHash : String
  logIndex : Int
  address : String
  topics : List String
  data : String
deriving DecidableEq

/-- Row of the `blocks` table
(`number INTEGER PRIMARY KEY, hash TEXT NOT NULL UNIQUE, ...`). -/
structure BlockRow where
  number : Int
  hash : String
  parentHash : String
  timestamp : Int
  gasLimit : Int
  gasUsed : Int
  miner : String
  difficulty : Int
  totalDifficulty : Int
  size : Int
  transactionCount : Int
deriving DecidableEq

/-- Row of the `transactions` table
(`id INTEGER PRIMARY KEY AUTOINCREMENT, hash TEXT NOT NULL UNIQUE, ...`).
The surrogate `id` carries no information and is omitted. -/
structure TxRow where
  hash : String
  blockNumber : Int
  blockHash : String
  transactionIndex : Int
  fromAddress : String
  toAddress : Option String
  value : Int
  gasPrice : Int
  gasLimit : Int
  gasUsed : Option Int
  nonce : Int
  inputData : String
  status : Option Int
deriving DecidableEq

/-- Row of the `events` table
(`id AUTOINCREMENT, ..., UNIQUE(transaction_hash, log_index)`). -/
structure EventRow where
  transactionHash : String
  blockNumber : Int
  blockHash : String
  logIndex : Int
  contractAddress : String
  eventSignature : Option String
  eventName : String
  topics : List String
  data : String
deriving DecidableEq

/-- Row of the `function_calls` table.  Its schema in
`createTables` is `id INTEGER PRIMARY KEY AUTOINCREMENT,
transaction_hash TEXT NOT NULL, ...` with NO unique constraint on
`transaction_hash` (only a foreign key), so `INSERT OR REPLACE` never
finds a conflicting row and behaves as a plain INSERT. -/
structure FunctionCallRow where
  transactionHash : String
  contractAddress : String
  functionSignature : String
  functionName : String
  inputData : String
  success : Bool
deriving DecidableEq

/-- The relational store: the five tables the pipeline writes
(`contracts` is only touched at registration and is irrelevant to the
claims, so it is omitted), plus the `indexer_state` key/value table. -/
structure Db where
  blocks : List BlockRow
  transactions : List TxRow
  events : List EventRow
  functionCalls : List FunctionCallRow
  indexerState : List (String × String)
deriving DecidableEq

def emptyDb : Db := ⟨[], [], [], [], []⟩

/-- SQLite `INSERT OR REPLACE`: every existing row that conflicts with
the new row on some PRIMARY KEY / UNIQUE constraint is deleted, then
the new row is inserted. -/
def insertOrReplace (conflict : ρ → ρ → Bool) (rows : List ρ) (r : ρ) : List ρ :=
  rows.filter (fun old => !conflict r old) ++ [r]

/-- `blocks` conflicts: `number` (PK) or `hash` (UNIQUE). -/
def blockConflict (a b : BlockRow) : Bool :=
  a.number == b.number || a.hash == b.hash

/-- `transactions` conflicts: `hash` (UNIQUE); the autoincrement id
never conflicts. -/
def txConflict (a b : TxRow) : Bool := a.hash == b.hash

/-- `events` conflicts: `UNIQUE(transaction_hash, log_index)`. -/
def eventConflict (a b : EventRow) : Bool :=
  a.transactionHash == b.transactionHash && a.logIndex == b.logIndex

/-- `StorageService.storeBlock` write (the single
`INSERT OR REPLACE INTO blocks ...` statement). -/
def storeBlockRow (db : Db) (r : BlockRow) : Db :=
  { db with blocks := insertOrReplace blockConflict db.blocks r }

/-- `StorageService.storeTransaction` write. -/
def storeTransactionRow (db : Db) (r : TxRow) : Db :=
  { db with transactions := insertOrReplace txConflict db.transactions r }

/-- `StorageService.storeEvent` write. -/
def storeEventRow (db : Db) (r : EventRow) : Db :=
  { db with events := insertOrReplace eventConflict db.events r }

/-- `StorageService.storeFunctionCall` write: `INSERT OR REPLACE INTO
function_calls ...`, but the table has no unique natural key (only the
autoincrement `id`), so the statement appends a fresh row every time. -/
def storeFunctionCallRow (db : Db) (r : FunctionCallRow) : Db :=
  { db with functionCalls := db.functionCalls ++ [r] }

/-- `DatabaseManager.setIndexerState`: `INSERT OR REPLACE INTO
indexer_state (key, value, updated_at) VALUES (?, ?, ?)`. -/
def setIndexerState (db : Db) (key value : String) : Db :=
  { db with indexerState :=
      insertOrReplace (fun a b => a.1 == b.1) db.indexerState (key, value) }

/-- `DatabaseManager.getIndexerState`: `SELECT value FROM indexer_state
WHERE key = ?`. -/
def getIndexerState (db : Db) (key : String) : Option String :=
  (db.indexerState.find? (fun kv => kv.1 == key)).map (·.2)

/-- `DatabaseManager.getLastIndexedBlock`:
`SELECT MAX(number) as last_block FROM blocks` followed by
`result?.last_block || 0`.  Note it reads the `blocks` table, not the
`indexer_state` row. -/
def getLastIndexedBlock (db : Db) : Int :=
  ((db.blocks.map (·.number)).max?).getD 0

/-- `IndexerService.getEventName`: static `topic[0]` signature → name
table with the `'Unknown'` sentinel for unresolved signatures. -/
def getEventName (eventSignature : String) : String :=
  if eventSignature = "0xddf252ad1be2c89b69c2b068fc378daa952ba7f163c4a11628f55a4df523b3ef" then
    "Transfer"
  else if eventSignature = "0x8c5be1e5ebec7d5bd14f71427d1e84f3dd0314c0f7b2291e5b200ac8c7c3b925" then
    "Approval"
  else "Unknown"

/-- `IndexerService.getFunctionName`: static 4-byte selector → name
table with the `'Unknown'` sentinel. -/
def getFunctionName (functionSelector : String) : String :=
  if functionSelector = "0xa9059cbb" then "transfer"
  else if functionSelector = "0x23b872dd" then "transferFrom"
  else if functionSelector = "0x095ea7b3" then "approve"
  else if functionSelector = "0x70a08231" then "balanceOf"
  else "Unknown"

/-- The row `StorageService.storeBlock` builds from a fetched block.
`size` is `block.length || 0`, and a block object has no `length`
property, so it is always `0`; `totalDifficulty` is hard-coded `'0'`. -/
def blockRowOf (b : Block) : BlockRow :=
  { number := b.number
    hash := b.hash
    parentHash := b.parentHash
    timestamp := b.timestamp
    gasLimit := b.gasLimit
    gasUsed := b.gasUsed
    miner := b.miner
    difficulty := b.difficulty.getD 0
    totalDifficulty := 0
    size := 0
    transactionCount := b.transactions.length }

/-- The row `StorageService.storeTransaction` builds: addresses are
lower-cased, `gas_used`/`status` come from the (possibly null)
receipt, `input_data` is `transaction.data || '0x'`. -/
def txRowOf (tx : Tx) (b : Block) (receipt : Option Receipt) : TxRow :=
  { hash := tx.hash
    blockNumber := b.number
    blockHash := b.hash
    transactionIndex := tx.index
    fromAddress := lowerStr tx.fromAddr
    toAddress := tx.to?.map lowerStr
    value := tx.value
    gasPrice := tx.gasPrice
    gasLimit := tx.gasLimit
    gasUsed := receipt.map (·.gasUsed)
    nonce := tx.nonce
    inputData := if tx.data = "" then "0x" else tx.data
    status := receipt.map (·.status) }

/-- The row `IndexerService.processEventLog` builds: the first topic
is the event signature (`log.topics[0]`, `undefined` on an empty topic
list, in which case `getEventName` yields `'Unknown'`). -/
def eventRowOf (log : Log) : EventRow :=
  { transactionHash := log.transactionHash
    blockNumber := log.blockNumber
    blockHash := log.blockHash
    logIndex := log.logIndex
    contractAddress := lowerStr log.address
    eventSignature := log.topics.head?
    eventName := (log.topics.head?.map getEventName).getD "Unknown"
    topics := log.topics
    data := log.data }

/-- The row `IndexerService.processFunctionCall` builds: the selector
is `transaction.data.slice(0, 10)` (the `0x` prefix plus 4 bytes),
`success` is `receipt.status === 1`.  The source reads
`transaction.to.toLowerCase()`; it is only called for transactions
that matched the tracked set, so `to` is non-null there. -/
def fnCallRowOf (tx : Tx) (receipt : Receipt) : FunctionCallRow :=
  { transactionHash := tx.hash
    contractAddress := lowerStr (tx.to?.getD "")
    functionSignature := tx.data.take 10
    functionName := getFunctionName (tx.data.take 10)
    inputData := tx.data
    success := receipt.status == 1 }

/-- Indexer configuration (`IndexerService` constructor, from env). -/
structure Config where
  contractAddresses : List String
  batchSize : Int
  blockConfirmations : Int

/-- The chain oracle, abstracting `BlockchainService` (each call site
already wraps the raw RPC in the `retry` policy modelled separately by
`retryRun`): `latest` is `getLatestBlockNumber`; `blockAt n = none`
means `getBlock n` threw after exhausting its retries; `receiptOf h =
none` means the receipt fetch failed or returned null; `logsAt n` is
the result of `getBatchLogs(addresses, n, n)` (a failed log query is
observationally `[]` because `processContractEvents` swallows it). -/
structure Chain where
  latest : Int
  blockAt : Int → Option Block
  receiptOf : String → Option Receipt
  logsAt : Int → List Log

/-- Injected storage failures: whether each `INSERT` statement throws
(constraint violation, connection loss).  A failed statement writes
nothing; there is no surrounding transaction to roll anything back. -/
structure Faults where
  blockStoreFails : Int → Bool
  txStoreFails : String → Bool
  eventStoreFails : String → Int → Bool
  fnCallStoreFails : String → Bool

def noFaults : Faults := ⟨fun _ => false, fun _ => false, fun _ _ => false, fun _ => false⟩

/-- The observable trace of a run, next to the store: which filtered
`getLogs` queries were issued (addresses, fromBlock, toBlock) and for
which transaction hashes a receipt fetch was issued. -/
structure World where
  db : Db
  logQueryTrace : List (List String × Int × Int)
  receiptFetchTrace : List String
deriving DecidableEq

def emptyWorld : World := ⟨emptyDb, [], []⟩

/-- `utils/helpers.js` `retry(fn, maxRetries)`: `outcomes i` is what
the `i`-th call of `fn` would produce (`none` = throw).  Returns the
final result together with the list of back-off sleeps in
milliseconds: on failure of attempt `a < maxRetries` it sleeps
`Math.pow(2, a - 1) * 1000` ms and retries; failure of the final
attempt rethrows immediately. -/
def retryAux (outcomes : Nat → Option α) (attempt : Nat) : Nat → Option α × List Nat
  | 0 => (none, [])
  | fuel + 1 =>
    match outcomes attempt with
    | some a => (some a, [])
    | none =>
      if fuel = 0 then (none, [])
      else
        let r := retryAux outcomes (attempt + 1) fuel
        (r.1, 2 ^ (attempt - 1) * 1000 :: r.2)

def retryRun (outcomes : Nat → Option α) (maxRetries : Nat) : Option α × List Nat :=
  retryAux outcomes 1 maxRetries

/-- `IndexerService.processFunctionCall`: builds the row and stores
it; a store error is caught and only logged. -/
def processFunctionCall (faults : Faults) (tx : Tx) (receipt : Receipt) (w : World) : World :=
  if faults.fnCallStoreFails tx.hash then w
  else { w with db := storeFunctionCallRow w.db (fnCallRowOf tx receipt) }

/-- The transaction filter of `IndexerService.processTransactions`:
keep `tx` iff `tx.to` is non-null and its lower-casing is in the
lower-cased tracked contract set. -/
def relevantTxs (cfg : Config) (txs : List Tx) : List Tx :=
  txs.filter fun tx =>
    match tx.to? with
    | some a => (cfg.contractAddresses.map lowerStr).contains (lowerStr a)
    | none => false

/-- One iteration of the store loop of `processTransactions`: the
receipt is the settled result for this transaction (`null` when the
fetch failed); `storeTransaction` errors are caught per transaction
(skipping that transaction's function-call step), and the
function-call step runs only when input data is non-empty, not
`'0x'`, and a receipt exists. -/
def storeOneTx (chain : Chain) (faults : Faults) (b : Block) (w : World) (tx : Tx) : World :=
  let receipt := chain.receiptOf tx.hash
  if faults.txStoreFails tx.hash then w
  else
    let w1 := { w with db := storeTransactionRow w.db (txRowOf tx b receipt) }
    if tx.data ≠ "" ∧ tx.data ≠ "0x" then
      match receipt with
      | some r => processFunctionCall faults tx r w1
      | none => w1
    else w1

/-- `IndexerService.processTransactions`: filter to the tracked set,
then (only if any survive) fetch receipts for exactly the surviving
hashes (`Promise.allSettled`) and store each transaction. -/
def processTransactions (cfg : Config) (chain : Chain) (faults : Faults)
    (txs : List Tx) (b : Block) (w : World) : World :=
  let relevant := relevantTxs cfg txs
  if relevant.isEmpty then w
  else
    let w1 := { w with receiptFetchTrace := w.receiptFetchTrace ++ relevant.map (·.hash) }
    relevant.foldl (storeOneTx chain faults b) w1

/-- `IndexerService.processEventLog`: builds the event row and stores
it; a store error is caught and only logged. -/
def processEventLog (faults : Faults) (log : Log) (w : World) : World :=
  if faults.eventStoreFails log.transactionHash log.logIndex then w
  else { w with db := storeEventRow w.db (eventRowOf log) }

/-- `IndexerService.processContractEvents(blockNumber)`: issues ONE
filtered `getBatchLogs(contractAddresses, blockNumber, blockNumber)`
query for this single block, then stores each returned log.  All
errors inside are caught and only logged. -/
def processContractEvents (cfg : Config) (chain : Chain) (faults : Faults)
    (blockNumber : Int) (w : World) : World :=
  let w1 := { w with logQueryTrace :=
      w.logQueryTrace ++ [(cfg.contractAddresses, blockNumber, blockNumber)] }
  (chain.logsAt blockNumber).foldl (fun w log => processEventLog faults log w) w1

/-- `IndexerService.processBlock`: store the block row (a throw here
propagates — `Except.error` carries the store as already written),
then process transactions and the block's events. -/
def processBlock (cfg : Config) (chain : Chain) (faults : Faults)
    (b : Block) (w : World) : Except World World :=
  if faults.blockStoreFails b.number then .error w
  else
    let w1 := { w with db := storeBlockRow w.db (blockRowOf b) }
    let w2 := if b.transactions.isEmpty then w1
              else processTransactions cfg chain faults b.transactions b w1
    .ok (processContractEvents cfg chain faults b.number w2)

/-- The settle-all loop of `processBlocksBatch`: each entry is the
settled outcome of one block fetch; a rejected fetch is only logged
and skipped, while an error thrown by `processBlock` propagates. -/
def processSettled (cfg : Config) (chain : Chain) (faults : Faults) :
    List (Option Block) → World → Except World World
  | [], w => .ok w
  | none :: rest, w => processSettled cfg chain faults rest w
  | some b :: rest, w =>
    (processBlock cfg chain faults b w).bind (processSettled cfg chain faults rest)

/-- `IndexerService.processBlocksBatch`: fetch every block of the
sub-batch (`Promise.allSettled` of the per-block `getBlock` calls,
each already retried internally), then run the settle-all loop. -/
def processBlocksBatch (cfg : Config) (chain : Chain) (faults : Faults)
    (blockNumbers : List Int) (w : World) : Except World World :=
  processSettled cfg chain faults (blockNumbers.map chain.blockAt) w

/-- Sequential processing of fetched blocks only; used to state that
`processBlocksBatch` drops failed fetches and processes exactly the
fulfilled ones. -/
def processFetched (cfg : Config) (chain : Chain) (faults : Faults) :
    List Block → World → Except World World
  | [], w => .ok w
  | b :: rest, w =>
    (processBlock cfg chain faults b w).bind (processFetched cfg chain faults rest)

/-- `[fromBlock, ..., toBlock]` as built by the loop at the top of
`indexBlockRange`; empty when `fromBlock > toBlock`. -/
def intRange (fromBlock toBlock : Int) : List Int :=
  (List.range (toBlock + 1 - fromBlock).toNat).map (fun i => fromBlock + i)

/-- Fuel-driven worker for `chunkList`; the fuel starts at the list
length, which suffices because each step removes at least one element
when `k ≥ 1` (structural recursion keeps the definition computable by
`rfl`/`decide`). -/
def chunkGo (k : Nat) : Nat → List α → List (List α)
  | _, [] => []
  | 0, l => [l]
  | fuel + 1, l => if k = 0 then [l] else l.take k :: chunkGo k fuel (l.drop k)

/-- `utils/helpers.js` `processInBatches` partitioning: fixed-size
chunks taken in order. -/
def chunkList (k : Nat) (l : List α) : List (List α) :=
  chunkGo k l.length l

/-- The chunk loop of `indexBlockRange` via `processInBatches`:
sub-batches are processed sequentially, and an error thrown by a
sub-batch propagates (its catch rethrows). -/
def processChunks (cfg : Config) (chain : Chain) (faults : Faults) :
    List (List Int) → World → Except World World
  | [], w => .ok w
  | c :: rest, w =>
    (processBlocksBatch cfg chain faults c w).bind (processChunks cfg chain faults rest)

/-- `IndexerService.indexBlockRange`: split `[fromBlock..toBlock]`
into sub-batches of `Math.min(10, blockNumbers.length)` and process
them sequentially. -/
def indexBlockRange (cfg : Config) (chain : Chain) (faults : Faults)
    (fromBlock toBlock : Int) (w : World) : Except World World :=
  let blockNumbers := intRange fromBlock toBlock
  processChunks cfg chain faults (chunkList (min 10 blockNumbers.length) blockNumbers) w

/-- The range decision inside `performIndexing` (lines 154-160):
`toBlock = Math.min(latestBlock - blockConfirmations, currentBlock +
batchSize - 1)`; the range `[currentBlock, toBlock]` is processed only
when `currentBlock <= toBlock`. -/
def nextRange (currentBlock latest confirmations batchSize : Int) : Option (Int × Int) :=
  let toBlock := min (latest - confirmations) (currentBlock + batchSize - 1)
  if currentBlock ≤ toBlock then some (currentBlock, toBlock) else none

/-- In-memory pipeline state: the `isRunning` flag, the cursor
`this.currentBlock`, the `lastProcessedBlock` statistic, and the
outside world (store plus RPC traces). -/
structure SysState where
  isRunning : Bool
  currentBlock : Int
  lastProcessedBlock : Int
  world : World
deriving DecidableEq

/-- One tick: `IndexerService.performIndexing`.  When the range is
non-empty it runs `indexBlockRange`; on success it sets `currentBlock
= toBlock + 1`, `lastProcessedBlock = toBlock` and persists
`last_indexed_block = toBlock`; any propagated error is caught (the
tick merely sleeps), leaving the cursor untouched but keeping whatever
was already written. -/
def performIndexing (cfg : Config) (chain : Chain) (faults : Faults)
    (s : SysState) : SysState :=
  if s.isRunning = false then s
  else
    match nextRange s.currentBlock chain.latest cfg.blockConfirmations cfg.batchSize with
    | none => s
    | some (fromBlock, toBlock) =>
      match indexBlockRange cfg chain faults fromBlock toBlock s.world with
      | .ok w1 =>
        { s with
          currentBlock := toBlock + 1
          lastProcessedBlock := toBlock
          world := { w1 with
            db := setIndexerState w1.db "last_indexed_block" (toString toBlock) } }
      | .error w1 => { s with world := w1 }

/-- The `START_BLOCK` configuration: `'latest'`, an explicit numeric
block, or unset/non-numeric. -/
inductive StartConfig where
  | latest
  | explicit (n : Int)
  | unset
deriving DecidableEq

/-- `IndexerService.determineStartingBlock`: explicit start block,
else `'latest'` resolved to the chain head, else
`dbManager.getLastIndexedBlock() + 1`. -/
def determineStartingBlock (c : StartConfig) (chainLatest : Int) (db : Db) : Int :=
  match c with
  | .latest => chainLatest
  | .explicit n => n
  | .unset => getLastIndexedBlock db + 1

/-- Driver-level state for the cron scheduling model: the
service-level `isRunning` flag and how many `performIndexing` calls
are currently in flight. -/
structure DriverState where
  isRunning : Bool
  ticksInFlight : Nat
deriving DecidableEq

/-- A timer fire of the cron job installed by
`IndexerService.startCronJob`.  The callback is
`if (this.isRunning) await this.performIndexing()`; `node-cron` does
not await the async callback, so a fire while a previous tick's
promise is still pending invokes the callback again — the only guard
is the service-level `isRunning` flag, which is set at `start()` and
cleared only by `stop()`. -/
def onTimerFire (s : DriverState) : DriverState :=
  if s.isRunning then { s with ticksInFlight := s.ticksInFlight + 1 } else s

/-! ## Concrete scenarios used by counterexamples and witnesses -/

def exceptIsOk : Except α β → Bool
  | .ok _ => true
  | .error _ => false

/-- Scenario for C1: a one-block range whose only block's fetch fails
after exhausting its retries. -/
def c1Cfg : Config := ⟨[], 1, 0⟩

def c1Chain : Chain := ⟨1, fun _ => none, fun _ => none, fun _ => []⟩

def c1S0 : SysState := ⟨true, 1, 0, emptyWorld⟩

/-- Scenario for C2: block 1 holds one tracked transaction whose
`storeTransaction` INSERT fails. -/
def c2Tx : Tx :=
  { hash := "0xt1", to? := some "0xAA", fromAddr := "0xf", value := 0,
    gasPrice := 0, gasLimit := 0, nonce := 0, data := "0x", index := 0 }

def c2Block : Block :=
  { number := 1, hash := "0xb1", parentHash := "0xb0", timestamp := 0,
    gasLimit := 0, gasUsed := 0, miner := "0xm", difficulty := none,
    transactions := [c2Tx] }

def c2Cfg : Config := ⟨["0xaa"], 1, 0⟩

def c2Chain : Chain :=
  ⟨1, fun n => if n = 1 then some c2Block else none,
   fun _ => some ⟨1, 21000⟩, fun _ => []⟩

def c2Faults : Faults :=
  { blockStoreFails := fun _ => false
    txStoreFails := fun h => h == "0xt1"
    eventStoreFails := fun _ _ => false
    fnCallStoreFails := fun _ => false }

def c2S0 : SysState := ⟨true, 1, 0, emptyWorld⟩

/-- Scenario for C3: a one-block range with one tracked transaction
carrying call data, committed twice. -/
def c3Tx : Tx :=
  { hash := "0xt1", to? := some "0xaa", fromAddr := "0xf", value := 0,
    gasPrice := 0, gasLimit := 0, nonce := 0, data := "0xa9059cbb01", index := 0 }

def c3Block : Block :=
  { number := 1, hash := "0xb1", parentHash := "0xb0", timestamp := 0,
    gasLimit := 0, gasUsed := 0, miner := "0xm", difficulty := none,
    transactions := [c3Tx] }

def c3Cfg : Config := ⟨["0xaa"], 1, 0⟩

def c3Chain : Chain :=
  ⟨1, fun n => if n = 1 then some c3Block else none,
   fun _ => some ⟨1, 21000⟩, fun _ => []⟩

def c3Run1 : Except World World := indexBlockRange c3Cfg c3Chain noFaults 1 1 emptyWorld

def c3World1 : World :=
  match c3Run1 with
  | .ok w => w
  | .error w => w

def c3Run2 : Except World World := indexBlockRange c3Cfg c3Chain noFaults 1 1 c3World1

def c3World2 : World :=
  match c3Run2 with
  | .ok w => w
  | .error w => w

/-- Scenario for C7: a two-block range, both blocks fetchable. -/
def c7BlockA : Block :=
  { number := 1, hash := "0xb1", parentHash := "0xb0", timestamp := 0,
    gasLimit := 0, gasUsed := 0, miner := "0xm", difficulty := none,
    transactions := [] }

def c7BlockB : Block :=
  { number := 2, hash := "0xb2", parentHash := "0xb1", timestamp := 0,
    gasLimit := 0, gasUsed := 0, miner := "0xm", difficulty := none,
    transactions := [] }

def c7Cfg : Config := ⟨["0xaa"], 10, 0⟩

def c7Chain : Chain :=
  ⟨2, fun n => if n = 1 then some c7BlockA else if n = 2 then some c7BlockB else none,
   fun _ => none, fun _ => []⟩

def c7Run : Except World World := indexBlockRange c7Cfg c7Chain noFaults 1 2 emptyWorld

def c7World : World :=
  match c7Run with
  | .ok w => w
  | .error w => w

/-- Faults where every `storeTransaction` INSERT fails (used by the
C2 witness). -/
def c2AllTxFaults : Faults :=
  { blockStoreFails := fun _ => false
    txStoreFails := fun _ => true
    eventStoreFails := fun _ _ => false
    fnCallStoreFails := fun _ => false }

/-- Scenario for C5: a block with three transactions of which exactly
one addresses a tracked contract (case-insensitively). -/
def c5Tx1 : Tx :=
  { hash := "0xt1", to? := some "0xAbC", fromAddr := "0xf", value := 0,
    gasPrice := 0, gasLimit := 0, nonce := 0, data := "0x", index := 0 }

def c5Tx2 : Tx :=
  { hash := "0xt2", to? := some "0xdd", fromAddr := "0xf", value := 0,
    gasPrice := 0, gasLimit := 0, nonce := 0, data := "0x", index := 1 }

def c5Tx3 : Tx :=
  { hash := "0xt3", to? := none, fromAddr := "0xf", value := 0,
    gasPrice := 0, gasLimit := 0, nonce := 0, data := "0x", index := 2 }

def c5Block : Block :=
  { number := 4, hash := "0xb4", parentHash := "0xb3", timestamp := 0,
    gasLimit := 0, gasUsed := 0, miner := "0xm", difficulty := none,
    transactions := [c5Tx1, c5Tx2, c5Tx3] }

def c5Cfg : Config := ⟨["0xabc"], 10, 0⟩

def c5Chain : Chain :=
  ⟨10, fun _ => none, fun _ => some ⟨1, 21000⟩, fun _ => []⟩

/-- Store used to refute C8: the `blocks` table reaches block 7 while
the `indexer_state` row `last_indexed_block` says 5. -/
def c8Db : Db :=
  { blocks := [{ number := 7, hash := "0xb7", parentHash := "0xb6", timestamp := 0,
                 gasLimit := 0, gasUsed := 0, miner := "0xm", difficulty := 0,
                 totalDifficulty := 0, size := 0, transactionCount := 0 }]
    transactions := []
    events := []
    functionCalls := []
    indexerState := [("last_indexed_block", "5")] }

/-! ## Helper lemmas -/

theorem insertOrReplace_idem (conflict : ρ → ρ → Bool) (l : List ρ) (r : ρ)
    (h : conflict r r = true) :
    insertOrReplace conflict (insertOrReplace conflict l r) r
      = insertOrReplace conflict l r := by
  simp [insertOrReplace, List.filter_append, List.filter_filter, h]

theorem find?_filter_append (l : List (String × String)) (k v : String) :
    ((l.filter fun old => !(k == old.1)) ++ [(k, v)]).find? (fun kv => kv.1 == k)
      = some (k, v) := by
  induction l with
  | nil => simp
  | cons hd tl ih =>
    by_cases h : k = hd.1
    · have hk : (k == hd.1) = true := by simpa using h
      simp only [List.filter_cons, hk, Bool.not_true]
      simpa using ih
    · have hk : (k == hd.1) = false := by simpa using h
      have hk2 : (hd.1 == k) = false := by
        simp only [beq_eq_false_iff_ne, ne_eq]
        exact fun hh => h hh.symm
      simp only [List.filter_cons, hk, Bool.not_false, if_true, List.cons_append]
      rw [List.find?_cons_of_neg _ (by simp [hk2])]
      exact ih

theorem getIndexerState_set (db : Db) (k v : String) :
    getIndexerState (setIndexerState db k v) k = some v := by
  simp only [getIndexerState, setIndexerState, insertOrReplace]
  rw [find?_filter_append db.indexerState k v]
  rfl

theorem processEventLog_frame (faults : Faults) (log : Log) (w : World) :
    (processEventLog faults log w).db.blocks = w.db.blocks ∧
    (processEventLog faults log w).db.transactions = w.db.transactions ∧
    (processEventLog faults log w).db.indexerState = w.db.indexerState ∧
    (processEventLog faults log w).logQueryTrace = w.logQueryTrace ∧
    (processEventLog faults log w).receiptFetchTrace = w.receiptFetchTrace := by
  simp only [processEventLog]
  split <;> simp [storeEventRow]

theorem foldl_processEventLog_frame (faults : Faults) (logs : List Log) :
    ∀ w : World,
      ((logs.foldl (fun w log => processEventLog faults log w) w).db.blocks
        = w.db.blocks) ∧
      ((logs.foldl (fun w log => processEventLog faults log w) w).db.transactions
        = w.db.transactions) ∧
      ((logs.foldl (fun w log => processEventLog faults log w) w).db.indexerState
        = w.db.indexerState) ∧
      ((logs.foldl (fun w log => processEventLog faults log w) w).logQueryTrace
        = w.logQueryTrace) ∧
      ((logs.foldl (fun w log => processEventLog faults log w) w).receiptFetchTrace
        = w.receiptFetchTrace) := by
  induction logs with
  | nil => intro w; simp
  | cons hd tl ih =>
    intro w
    have h1 := processEventLog_frame faults hd w
    have h2 := ih (processEventLog faults hd w)
    simp only [List.foldl_cons]
    exact ⟨h2.1.trans h1.1, (h2.2.1).trans h1.2.1, (h2.2.2.1).trans h1.2.2.1,
      (h2.2.2.2.1).trans h1.2.2.2.1, (h2.2.2.2.2).trans h1.2.2.2.2⟩

theorem processContractEvents_frame (cfg : Config) (chain : Chain) (faults : Faults)
    (n : Int) (w : World) :
    ((processContractEvents cfg chain faults n w).db.blocks = w.db.blocks) ∧
    ((processContractEvents cfg chain faults n w).db.transactions = w.db.transactions) ∧
    ((processContractEvents cfg chain faults n w).logQueryTrace
      = w.logQueryTrace ++ [(cfg.contractAddresses, n, n)]) ∧
    ((processContractEvents cfg chain faults n w).receiptFetchTrace
      = w.receiptFetchTrace) := by
  simp only [processContractEvents]
  have h := foldl_processEventLog_frame faults (chain.logsAt n)
    { w with logQueryTrace := w.logQueryTrace ++ [(cfg.contractAddresses, n, n)] }
  exact ⟨h.1, h.2.1, h.2.2.2.1, h.2.2.2.2⟩

theorem processFunctionCall_frame (faults : Faults) (tx : Tx) (r : Receipt) (w : World) :
    ((processFunctionCall faults tx r w).db.blocks = w.db.blocks) ∧
    ((processFunctionCall faults tx r w).db.transactions = w.db.transactions) ∧
    ((processFunctionCall faults tx r w).logQueryTrace = w.logQueryTrace) ∧
    ((processFunctionCall faults tx r w).receiptFetchTrace = w.receiptFetchTrace) := by
  simp only [processFunctionCall]
  split <;> simp [storeFunctionCallRow]

theorem storeOneTx_fault (chain : Chain) (faults : Faults) (b : Block) (w : World)
    (tx : Tx) (h : faults.txStoreFails tx.hash = true) :
    storeOneTx chain faults b w tx = w := by
  simp [storeOneTx, h]

theorem storeOneTx_transactions (chain : Chain) (faults : Faults) (b : Block)
    (w : World) (tx : Tx) (h : faults.txStoreFails tx.hash = false) :
    (storeOneTx chain faults b w tx).db.transactions =
      insertOrReplace txConflict w.db.transactions
        (txRowOf tx b (chain.receiptOf tx.hash)) := by
  simp only [storeOneTx, h, Bool.false_eq_true, if_false]
  split
  · split
    · exact (processFunctionCall_frame _ _ _ _).2.1.trans (by simp [storeTransactionRow])
    · simp [storeTransactionRow]
  · simp [storeTransactionRow]

theorem storeOneTx_blocks (chain : Chain) (faults : Faults) (b : Block)
    (w : World) (tx : Tx) :
    ((storeOneTx chain faults b w tx).db.blocks = w.db.blocks) ∧
    ((storeOneTx chain faults b w tx).logQueryTrace = w.logQueryTrace) ∧
    ((storeOneTx chain faults b w tx).receiptFetchTrace = w.receiptFetchTrace) := by
  simp only [storeOneTx]
  split
  · simp
  · split
    · split
      · refine ⟨?_, ?_, ?_⟩ <;>
          simp [(processFunctionCall_frame _ _ _ _).1,
            (processFunctionCall_frame _ _ _ _).2.2.1,
            (processFunctionCall_frame _ _ _ _).2.2.2,
            storeTransactionRow]
      · simp [storeTransactionRow]
    · simp [storeTransactionRow]

theorem processBlock_ok (cfg : Config) (chain : Chain) (faults : Faults) (b : Block)
    (w : World) (h : faults.blockStoreFails b.number = false) :
    processBlock cfg chain faults b w
      = .ok (processContractEvents cfg chain faults b.number
          (if b.transactions.isEmpty then { w with db := storeBlockRow w.db (blockRowOf b) }
           else processTransactions cfg chain faults b.transactions b
             { w with db := storeBlockRow w.db (blockRowOf b) })) := by
  simp [processBlock, h]

theorem processSettled_ok (cfg : Config) (chain : Chain) (faults : Faults)
    (h : ∀ n, faults.blockStoreFails n = false) :
    ∀ (l : List (Option Block)) (w : World),
      ∃ w1, processSettled cfg chain faults l w = .ok w1 := by
  intro l
  induction l with
  | nil => intro w; exact ⟨w, rfl⟩
  | cons hd tl ih =>
    intro w
    cases hd with
    | none => exact ih w
    | some b =>
      obtain ⟨w1, hw1⟩ := ih (processContractEvents cfg chain faults b.number
        (if b.transactions.isEmpty then { w with db := storeBlockRow w.db (blockRowOf b) }
         else processTransactions cfg chain faults b.transactions b
           { w with db := storeBlockRow w.db (blockRowOf b) }))
      refine ⟨w1, ?_⟩
      simp only [processSettled, processBlock_ok cfg chain faults b w (h b.number)]
      simpa [Except.bind] using hw1

theorem processChunks_ok (cfg : Config) (chain : Chain) (faults : Faults)
    (h : ∀ n, faults.blockStoreFails n = false) :
    ∀ (cs : List (List Int)) (w : World),
      ∃ w1, processChunks cfg chain faults cs w = .ok w1 := by
  intro cs
  induction cs with
  | nil => intro w; exact ⟨w, rfl⟩
  | cons c rest ih =>
    intro w
    obtain ⟨wmid, hmid⟩ := processSettled_ok cfg chain faults h (c.map chain.blockAt) w
    obtain ⟨wfin, hfin⟩ := ih wmid
    refine ⟨wfin, ?_⟩
    simp only [processChunks, processBlocksBatch, hmid]
    simpa [Except.bind] using hfin

theorem indexBlockRange_ok (cfg : Config) (chain : Chain) (faults : Faults)
    (fromBlock toBlock : Int) (w : World)
    (h : ∀ n, faults.blockStoreFails n = false) :
    ∃ w1, indexBlockRange cfg chain faults fromBlock toBlock w = .ok w1 :=
  processChunks_ok cfg chain faults h _ w

theorem processSettled_eq (cfg : Config) (chain : Chain) (faults : Faults) :
    ∀ (l : List (Option Block)) (w : World),
      processSettled cfg chain faults l w
        = processFetched cfg chain faults (l.filterMap id) w := by
  intro l
  induction l with
  | nil => intro w; rfl
  | cons hd tl ih =>
    intro w
    cases hd with
    | none =>
      simp only [processSettled, List.filterMap_cons]
      exact ih w
    | some b =>
      simp only [processSettled, List.filterMap_cons, id, processFetched]
      cases hpb : processBlock cfg chain faults b w with
      | ok w1 => simp [Except.bind, hpb, ih w1]
      | error w1 => simp [Except.bind, hpb]

theorem processBlocksBatch_eq (cfg : Config) (chain : Chain) (faults : Faults)
    (bns : List Int) (w : World) :
    processBlocksBatch cfg chain faults bns w
      = processFetched cfg chain faults (bns.filterMap chain.blockAt) w := by
  rw [processBlocksBatch, processSettled_eq]
  congr 1
  simp [List.filterMap_map, Function.comp]

theorem retryAux_allfail (outcomes : Nat → Option Block) (h : ∀ i, outcomes i = none) :
    ∀ (fuel attempt : Nat), 1 ≤ attempt →
      retryAux outcomes attempt fuel
        = (none, (List.range (fuel - 1)).map fun i => 2 ^ (attempt - 1 + i) * 1000) := by
  intro fuel
  induction fuel with
  | zero => intro attempt _; simp [retryAux]
  | succ fuel ih =>
    intro attempt ha
    simp only [retryAux, h attempt]
    by_cases hf : fuel = 0
    · subst hf; simp
    · rw [if_neg hf, ih (attempt + 1) (by omega)]
      obtain ⟨k, rfl⟩ := Nat.exists_eq_succ_of_ne_zero hf
      simp only [Nat.add_sub_cancel, Nat.succ_sub_one, List.range_succ_eq_map,
        List.map_cons, List.map_map]
      refine congrArg (Prod.mk none) ?_
      refine List.cons_eq_cons.mpr ⟨by simp, ?_⟩
      refine List.map_congr_left (fun a _ => ?_)
      simp only [Function.comp, Nat.succ_eq_add_one]
      have h2 : attempt + a = attempt - 1 + (a + 1) := by omega
      rw [h2]

theorem retryRun_first_success (outcomes : Nat → Option Block) (b : Block)
    (h : outcomes 1 = some b) (m : Nat) (hm : 1 ≤ m) :
    retryRun outcomes m = (some b, []) := by
  obtain ⟨k, rfl⟩ := Nat.exists_eq_succ_of_ne_zero (by omega : m ≠ 0)
  simp [retryRun, retryAux, h]

theorem foldl_storeOneTx_frame (chain : Chain) (faults : Faults) (b : Block)
    (l : List Tx) :
    ∀ w : World,
      ((l.foldl (storeOneTx chain faults b) w).db.blocks = w.db.blocks) ∧
      ((l.foldl (storeOneTx chain faults b) w).logQueryTrace = w.logQueryTrace) ∧
      ((l.foldl (storeOneTx chain faults b) w).receiptFetchTrace
        = w.receiptFetchTrace) := by
  induction l with
  | nil => intro w; exact ⟨rfl, rfl, rfl⟩
  | cons tx rest ih =>
    intro w
    have h1 := storeOneTx_blocks chain faults b w tx
    have h2 := ih (storeOneTx chain faults b w tx)
    simp only [List.foldl_cons]
    exact ⟨h2.1.trans h1.1, h2.2.1.trans h1.2.1, h2.2.2.trans h1.2.2⟩

theorem foldl_storeOneTx_allfault (chain : Chain) (faults : Faults) (b : Block)
    (l : List Tx) (hl : ∀ tx ∈ l, faults.txStoreFails tx.hash = true) :
    ∀ w : World, l.foldl (storeOneTx chain faults b) w = w := by
  induction l with
  | nil => intro w; rfl
  | cons tx rest ih =>
    intro w
    simp only [List.foldl_cons, storeOneTx_fault chain faults b w tx (hl tx (by simp))]
    exact ih (fun t ht => hl t (by simp [ht])) w

theorem filter_filter_of_imp {α : Type} (p q : α → Bool) :
    ∀ l : List α, (∀ a ∈ l, p a = true → q a = true) →
      (l.filter q).filter p = l.filter p := by
  intro l
  induction l with
  | nil => intro _; rfl
  | cons hd tl ih =>
    intro h
    have htl := ih (fun a ha hp => h a (List.mem_cons_of_mem _ ha) hp)
    by_cases hq : q hd = true
    · by_cases hp : p hd = true
      · simp [List.filter_cons, hq, hp, htl]
      · rw [Bool.not_eq_true] at hp
        simp [List.filter_cons, hq, hp, htl]
    · have hp : p hd = false := by
        cases hpb : p hd
        · rfl
        · exact absurd (h hd (by simp) hpb) hq
      rw [Bool.not_eq_true] at hq
      simp [List.filter_cons, hq, hp, htl]

theorem count_insertOrReplace_tx (bnum : Int) (rows : List TxRow) (row : TxRow)
    (hrow : row.blockNumber = bnum)
    (hfree : ∀ r ∈ rows, r.blockNumber = bnum → r.hash ≠ row.hash) :
    ((insertOrReplace txConflict rows row).filter
        (fun r => r.blockNumber == bnum)).length
      = (rows.filter (fun r => r.blockNumber == bnum)).length + 1 := by
  simp only [insertOrReplace, List.filter_append, List.length_append]
  have himp : ∀ r ∈ rows, ((fun r : TxRow => r.blockNumber == bnum) r = true →
      (fun old => !txConflict row old) r = true) := by
    intro r hr hp
    have hbn : r.blockNumber = bnum := by simpa using hp
    have hne := hfree r hr hbn
    simp only [txConflict, Bool.not_eq_true', beq_eq_false_iff_ne, ne_eq]
    exact fun hh => hne hh.symm
  rw [filter_filter_of_imp _ _ rows himp]
  have hr1 : List.filter (fun r : TxRow => r.blockNumber == bnum) [row] = [row] := by
    simp [hrow]
  rw [hr1]
  rfl

theorem foldl_storeOneTx_count (chain : Chain) (faults : Faults) (b : Block) :
    ∀ (l : List Tx) (w : World),
      (∀ tx ∈ l, faults.txStoreFails tx.hash = false) →
      ((l.map (fun tx => tx.hash)).Nodup) →
      (∀ tx ∈ l, ∀ r ∈ w.db.transactions, r.blockNumber = b.number → r.hash ≠ tx.hash) →
      ((l.foldl (storeOneTx chain faults b) w).db.transactions.filter
          (fun r => r.blockNumber == b.number)).length
        = (w.db.transactions.filter (fun r => r.blockNumber == b.number)).length
          + l.length := by
  intro l
  induction l with
  | nil => intro w _ _ _; simp
  | cons tx rest ih =>
    intro w hfail hnodup hfresh
    have hfailtx : faults.txStoreFails tx.hash = false := hfail tx (by simp)
    have htrans := storeOneTx_transactions chain faults b w tx hfailtx
    have hrow : (txRowOf tx b (chain.receiptOf tx.hash)).blockNumber = b.number := rfl
    have hrowhash : (txRowOf tx b (chain.receiptOf tx.hash)).hash = tx.hash := rfl
    have hnodup2 : ((tx.hash : String) :: rest.map (fun tx => tx.hash)).Nodup := by
      simpa using hnodup
    have hfresh0 : ∀ r ∈ w.db.transactions, r.blockNumber = b.number →
        r.hash ≠ (txRowOf tx b (chain.receiptOf tx.hash)).hash := by
      intro r hr hbn
      rw [hrowhash]
      exact hfresh tx (by simp) r hr hbn
    have hstep := count_insertOrReplace_tx b.number w.db.transactions
      (txRowOf tx b (chain.receiptOf tx.hash)) hrow hfresh0
    have hfresh1 : ∀ t2 ∈ rest, ∀ r ∈ (storeOneTx chain faults b w tx).db.transactions,
        r.blockNumber = b.number → r.hash ≠ t2.hash := by
      intro t2 ht2 r hr hbn
      rw [htrans] at hr
      simp only [insertOrReplace] at hr
      rcases List.mem_append.mp hr with hmem | hmem
      · exact hfresh t2 (by simp [ht2]) r (List.mem_of_mem_filter hmem) hbn
      · have hreq : r = txRowOf tx b (chain.receiptOf tx.hash) := by simpa using hmem
        rw [hreq, hrowhash]
        intro heq
        have hm : t2.hash ∈ rest.map (fun tx => tx.hash) := List.mem_map_of_mem _ ht2
        rw [← heq] at hm
        exact (List.nodup_cons.mp hnodup2).1 hm
    have hrec := ih (storeOneTx chain faults b w tx)
      (fun t ht => hfail t (by simp [ht]))
      (List.nodup_cons.mp hnodup2).2
      hfresh1
    simp only [List.foldl_cons, List.length_cons]
    rw [hrec, htrans, hstep]
    omega

theorem processTransactions_frame (cfg : Config) (chain : Chain) (faults : Faults)
    (txs : List Tx) (b : Block) (w : World) :
    ((processTransactions cfg chain faults txs b w).db.blocks = w.db.blocks) ∧
    ((processTransactions cfg chain faults txs b w).logQueryTrace = w.logQueryTrace) := by
  simp only [processTransactions]
  split
  · exact ⟨rfl, rfl⟩
  · have h := foldl_storeOneTx_frame chain faults b (relevantTxs cfg txs)
      { w with receiptFetchTrace :=
          w.receiptFetchTrace ++ (relevantTxs cfg txs).map (·.hash) }
    exact ⟨h.1, h.2.1⟩

theorem processTransactions_allfault (cfg : Config) (chain : Chain) (faults : Faults)
    (txs : List Tx) (b : Block) (w : World)
    (htx : ∀ h, faults.txStoreFails h = true) :
    (processTransactions cfg chain faults txs b w).db = w.db := by
  simp only [processTransactions]
  split
  · rfl
  · rw [foldl_storeOneTx_allfault chain faults b _ (fun tx _ => htx tx.hash)]

theorem processTransactions_count (cfg : Config) (chain : Chain) (faults : Faults)
    (txs : List Tx) (b : Block) (w : World)
    (hnofail : ∀ tx ∈ relevantTxs cfg txs, faults.txStoreFails tx.hash = false)
    (hnodup : ((relevantTxs cfg txs).map (fun tx => tx.hash)).Nodup)
    (hfresh : ∀ r ∈ w.db.transactions, r.blockNumber ≠ b.number) :
    (((processTransactions cfg chain faults txs b w).db.transactions.filter
        (fun r => r.blockNumber == b.number)).length
      = (relevantTxs cfg txs).length) ∧
    ((processTransactions cfg chain faults txs b w).receiptFetchTrace
      = w.receiptFetchTrace ++ (relevantTxs cfg txs).map (fun tx => tx.hash)) := by
  have hzero : w.db.transactions.filter (fun r => r.blockNumber == b.number) = [] := by
    rw [List.filter_eq_nil_iff]
    intro r hr
    simpa using hfresh r hr
  simp only [processTransactions]
  by_cases hre : (relevantTxs cfg txs).isEmpty
  · have hrel : relevantTxs cfg txs = [] := List.isEmpty_iff.mp hre
    simp [hrel, hzero]
  · rw [if_neg (by simpa using hre)]
    have hvac : ∀ tx ∈ relevantTxs cfg txs,
        ∀ r ∈ ({ w with receiptFetchTrace :=
            w.receiptFetchTrace ++ (relevantTxs cfg txs).map (·.hash) } : World).db.transactions,
        r.blockNumber = b.number → r.hash ≠ tx.hash := by
      intro tx _ r hr hbn
      exact absurd hbn (hfresh r hr)
    have hcount := foldl_storeOneTx_count chain faults b (relevantTxs cfg txs)
      { w with receiptFetchTrace :=
          w.receiptFetchTrace ++ (relevantTxs cfg txs).map (·.hash) }
      hnofail hnodup hvac
    have hframe := foldl_storeOneTx_frame chain faults b (relevantTxs cfg txs)
      { w with receiptFetchTrace :=
          w.receiptFetchTrace ++ (relevantTxs cfg txs).map (·.hash) }
    constructor
    · rw [hcount]
      simp only []
      rw [hzero]
      simp [List.length_map]
    · rw [hframe.2.2]

/-! ## Claim theorems -/

/-- C4: a tick computes the safe height `latest - confirmations`; with
cursor = last processed block (the code's `currentBlock` is
`cursor + 1`), if `cursor ≥ safeHeight` nothing is processed,
otherwise exactly the range `[cursor + 1, min(safeHeight, cursor +
maxBatch)]` is proposed — never past the confirmation boundary, never
more than `batchSize` blocks; in particular head=120,
confirmations=12, cursor=100, batch=5 proposes `[101, 105]`, and the
following tick at head=120 proposes `[106, 108]`. -/
theorem c4_scheduler_range (cursor latest confirmations batchSize : Int)
    (hb : 1 ≤ batchSize) :
    (latest - confirmations ≤ cursor →
      nextRange (cursor + 1) latest confirmations batchSize = none) ∧
    (cursor < latest - confirmations →
      nextRange (cursor + 1) latest confirmations batchSize =
        some (cursor + 1, min (latest - confirmations) (cursor + batchSize))) ∧
    nextRange 101 120 12 5 = some (101, 105) ∧
    nextRange 106 120 12 5 = some (106, 108) := by
  refine ⟨fun h => ?_, fun h => ?_, by decide, by decide⟩
  · simp only [nextRange]
    rw [if_neg (by omega)]
  · simp only [nextRange]
    rw [if_pos (by omega)]
    have h2 : cursor + 1 + batchSize - 1 = cursor + batchSize := by ring
    rw [h2]

/-- Witness for C4 at cursor=100 and cursor=108, head=120,
confirmations=12, batch=5. -/
theorem c4_scheduler_range_witness :
    nextRange 101 120 12 5 = some (101, 105) ∧ nextRange 109 120 12 5 = none :=
  ⟨(c4_scheduler_range 100 120 12 5 (by decide)).2.2.1,
   (c4_scheduler_range 108 120 12 5 (by decide)).1 (by decide)⟩

/-- C10: on a tick where `min(latest - confirmations, currentBlock +
batchSize - 1)` is strictly below `currentBlock`, `performIndexing`
performs no store writes and leaves `currentBlock`,
`lastProcessedBlock` and the persisted `last_indexed_block` (indeed
the whole state) unchanged. -/
theorem c10_empty_tick_frame (cfg : Config) (chain : Chain) (faults : Faults)
    (s : SysState)
    (h : min (chain.latest - cfg.blockConfirmations) (s.currentBlock + cfg.batchSize - 1)
        < s.currentBlock) :
    performIndexing cfg chain faults s = s := by
  by_cases hrun : s.isRunning = false
  · simp [performIndexing, hrun]
  · have hno : nextRange s.currentBlock chain.latest cfg.blockConfirmations cfg.batchSize
        = none := by
      simp only [nextRange]
      rw [if_neg (by omega)]
    simp [performIndexing, hrun, hno]

/-- Witness for C10: head=100, confirmations=12, cursor at 95 with
batch 5 — safe height 88 is below the cursor, the tick is a no-op. -/
theorem c10_empty_tick_frame_witness :
    performIndexing ⟨[], 5, 12⟩
      ⟨100, fun _ => none, fun _ => none, fun _ => []⟩ noFaults
      ⟨true, 95, 94, emptyWorld⟩ = ⟨true, 95, 94, emptyWorld⟩ :=
  c10_empty_tick_frame ⟨[], 5, 12⟩
    ⟨100, fun _ => none, fun _ => none, fun _ => []⟩ noFaults
    ⟨true, 95, 94, emptyWorld⟩ (by decide)

/-- C9 counterexample: with the service running and one tick already
in flight, a timer fire starts a second overlapping tick instead of
skipping — the cron callback's only guard is the service-level
`isRunning` flag. -/
theorem c9_counterexample :
    (onTimerFire ⟨true, 1⟩).ticksInFlight = 2 ∧
    ¬ (onTimerFire ⟨true, 1⟩).ticksInFlight ≤ 1 := by
  decide

/-- C9 as amended: a timer fire starts a new `performIndexing` call
exactly when the service-level `isRunning` flag is set, regardless of
whether a previous tick is still in flight; fires are skipped only
once the service has been stopped. -/
theorem c9_amended_tick_guard (s : DriverState) :
    (s.ticksInFlight < (onTimerFire s).ticksInFlight ↔ s.isRunning = true) ∧
    (onTimerFire s).isRunning = s.isRunning := by
  cases s with
  | mk r n => cases r <;> simp [onTimerFire]

/-- C8 counterexample: with neither an explicit start block nor
`'latest'` configured, the cursor is seeded to `MAX(blocks.number) + 1
= 8`, not to the persisted `indexer_state` value `5` plus one. -/
theorem c8_counterexample :
    getIndexerState c8Db "last_indexed_block" = some "5" ∧
    determineStartingBlock .unset 99 c8Db = 8 ∧
    determineStartingBlock .unset 99 c8Db ≠ 5 + 1 := by
  decide

/-- C8 as amended: with neither an explicit numeric start block nor
`'latest'` configured, the cursor is seeded from the maximum block
number stored in the `blocks` table (0 when empty) plus one
(`getLastIndexedBlock` runs `SELECT MAX(number) FROM blocks`); the
persisted `indexer_state` row `last_indexed_block` is written during
indexing but never consulted at startup. -/
theorem c8_amended_resume_seed (latest : Int) (db : Db) :
    determineStartingBlock .unset latest db =
      ((db.blocks.map (·.number)).max?).getD 0 + 1 ∧
    (∀ kvs, determineStartingBlock .unset latest { db with indexerState := kvs } =
      determineStartingBlock .unset latest db) :=
  ⟨rfl, fun _ => rfl⟩

/-- C1 counterexample: a one-block range whose only block's fetch
fails after exhausting its retries is merely logged; the tick still
advances the in-memory cursor to 2 and persists
`last_indexed_block = 1` — the cursor moves past a range containing an
unresolved fetch failure. -/
theorem c1_counterexample :
    c1Chain.blockAt 1 = none ∧
    nextRange c1S0.currentBlock c1Chain.latest c1Cfg.blockConfirmations c1Cfg.batchSize
      = some (1, 1) ∧
    (performIndexing c1Cfg c1Chain noFaults c1S0).currentBlock = 2 ∧
    (performIndexing c1Cfg c1Chain noFaults c1S0).lastProcessedBlock = 1 ∧
    getIndexerState (performIndexing c1Cfg c1Chain noFaults c1S0).world.db
      "last_indexed_block" = some "1" := by
  decide

/-- C2 counterexample: in a range whose single block stores fine but
whose tracked transaction's INSERT fails, the block row stays visible
(nothing is rolled back), the transactions table stays empty, the
error does not propagate, and the cursor still advances — there is no
surrounding atomic transaction. -/
theorem c2_counterexample :
    c2Faults.txStoreFails "0xt1" = true ∧
    (performIndexing c2Cfg c2Chain c2Faults c2S0).world.db.blocks
      = [blockRowOf c2Block] ∧
    (performIndexing c2Cfg c2Chain c2Faults c2S0).world.db.transactions = [] ∧
    (performIndexing c2Cfg c2Chain c2Faults c2S0).currentBlock = 2 := by
  decide

/-- C3 counterexample: committing the same one-block range twice
leaves blocks, transactions and events unchanged, but appends a second
identical `function_calls` row — the `function_calls` table has no
unique key on `transaction_hash`, so its `INSERT OR REPLACE` is a
plain insert. -/
theorem c3_counterexample :
    exceptIsOk c3Run1 = true ∧
    exceptIsOk c3Run2 = true ∧
    c3World1.db.functionCalls.length = 1 ∧
    c3World2.db.functionCalls.length = 2 ∧
    c3World2.db.blocks = c3World1.db.blocks ∧
    c3World2.db.transactions = c3World1.db.transactions ∧
    c3World2.db.events = c3World1.db.events ∧
    ¬ c3World2.db.functionCalls.length = c3World1.db.functionCalls.length := by
  decide

/-- C7 counterexample: processing the two-block range `[1, 2]` issues
one filtered-logs query per block — `(addresses, 1, 1)` then
`(addresses, 2, 2)` — and never a single query covering the entire
range `(addresses, 1, 2)`. -/
theorem c7_counterexample :
    c7World.logQueryTrace = [(["0xaa"], 1, 1), (["0xaa"], 2, 2)] ∧
    ¬ (["0xaa"], (1 : Int), (2 : Int)) ∈ c7World.logQueryTrace := by
  decide

/-- C1 as amended: the cursor (in-memory `currentBlock`, the
`lastProcessedBlock` statistic, and the persisted
`last_indexed_block`) advances to the tick's `toBlock` whenever the
range's processing completes without a propagated persistence error —
in particular whenever every block-row INSERT succeeds, even if some
block fetches in the range failed after exhausting their retries
(those blocks are merely logged and skipped). -/
theorem c1_amended_cursor_advance (cfg : Config) (chain : Chain) (faults : Faults)
    (s : SysState) (fromBlock toBlock : Int)
    (hrun : s.isRunning = true)
    (hnext : nextRange s.currentBlock chain.latest cfg.blockConfirmations cfg.batchSize
      = some (fromBlock, toBlock))
    (hstore : ∀ n, faults.blockStoreFails n = false) :
    (performIndexing cfg chain faults s).currentBlock = toBlock + 1 ∧
    (performIndexing cfg chain faults s).lastProcessedBlock = toBlock ∧
    getIndexerState (performIndexing cfg chain faults s).world.db "last_indexed_block"
      = some (toString toBlock) := by
  obtain ⟨w1, hw1⟩ := indexBlockRange_ok cfg chain faults fromBlock toBlock s.world hstore
  simp only [performIndexing, hrun, hnext, hw1]
  exact ⟨rfl, rfl, getIndexerState_set w1.db _ _⟩

/-- Witness for the amended C1: the C1 scenario itself (the only
block's fetch fails, all stores succeed) advances the cursor. -/
theorem c1_amended_cursor_advance_witness :
    (performIndexing c1Cfg c1Chain noFaults c1S0).currentBlock = 1 + 1 ∧
    (performIndexing c1Cfg c1Chain noFaults c1S0).lastProcessedBlock = 1 ∧
    getIndexerState (performIndexing c1Cfg c1Chain noFaults c1S0).world.db
      "last_indexed_block" = some (toString (1 : Int)) :=
  c1_amended_cursor_advance c1Cfg c1Chain noFaults c1S0 1 1 rfl (by decide)
    (fun _ => rfl)

/-- C2 as amended: store writes are individual autocommit upserts, not
one atomic transaction.  A failed `storeTransaction` INSERT is caught
per transaction and only logged: the block row already written for the
same range stays visible, nothing is rolled back, and the error does
not propagate (`processBlock` still succeeds, so the driver advances
the cursor); only a failed block-row INSERT propagates. -/
theorem c2_amended_no_atomic_commit (cfg : Config) (chain : Chain) (faults : Faults)
    (b : Block) (w : World)
    (htx : ∀ h, faults.txStoreFails h = true)
    (hb : faults.blockStoreFails b.number = false) :
    ∃ w1, processBlock cfg chain faults b w = .ok w1 ∧
      blockRowOf b ∈ w1.db.blocks ∧
      w1.db.transactions = w.db.transactions := by
  rw [processBlock_ok cfg chain faults b w hb]
  refine ⟨_, rfl, ?_, ?_⟩
  · rw [(processContractEvents_frame cfg chain faults b.number _).1]
    by_cases he : b.transactions.isEmpty
    · rw [if_pos he]
      simp [storeBlockRow, insertOrReplace]
    · rw [if_neg he]
      rw [(processTransactions_frame cfg chain faults b.transactions b _).1]
      simp [storeBlockRow, insertOrReplace]
  · rw [(processContractEvents_frame cfg chain faults b.number _).2.1]
    by_cases he : b.transactions.isEmpty
    · rw [if_pos he]
      rfl
    · rw [if_neg he]
      rw [processTransactions_allfault cfg chain faults b.transactions b _ htx]
      rfl

/-- Witness for the amended C2: the C2 block with every transaction
INSERT failing. -/
theorem c2_amended_no_atomic_commit_witness :
    ∃ w1, processBlock c2Cfg c2Chain c2AllTxFaults c2Block emptyWorld = .ok w1 ∧
      blockRowOf c2Block ∈ w1.db.blocks ∧
      w1.db.transactions = emptyWorld.db.transactions :=
  c2_amended_no_atomic_commit c2Cfg c2Chain c2AllTxFaults c2Block emptyWorld
    (fun _ => rfl) rfl

/-- C3 as amended: re-storing the same entity is idempotent for
blocks (keyed by number/hash), transactions (keyed by hash) and events
(keyed by (transaction_hash, log_index)), so re-committing a range
leaves those three tables unchanged; but `function_calls` has no
unique natural key (only an autoincrement id), so storing the same
function call twice appends two rows — re-processing an
already-committed range duplicates `function_calls`. -/
theorem c3_amended_upsert_keys (db : Db) (b : BlockRow) (t : TxRow) (e : EventRow)
    (f : FunctionCallRow) :
    storeBlockRow (storeBlockRow db b) b = storeBlockRow db b ∧
    storeTransactionRow (storeTransactionRow db t) t = storeTransactionRow db t ∧
    storeEventRow (storeEventRow db e) e = storeEventRow db e ∧
    (storeFunctionCallRow (storeFunctionCallRow db f) f).functionCalls
      = db.functionCalls ++ [f, f] := by
  refine ⟨?_, ?_, ?_, by simp [storeFunctionCallRow]⟩
  · simp only [storeBlockRow]
    rw [insertOrReplace_idem blockConflict db.blocks b (by simp [blockConflict])]
  · simp only [storeTransactionRow]
    rw [insertOrReplace_idem txConflict db.transactions t (by simp [txConflict])]
  · simp only [storeEventRow]
    rw [insertOrReplace_idem eventConflict db.events e (by simp [eventConflict])]

/-- C5: processing a block whose M transactions contain exactly J
whose `to` address matches a tracked contract case-insensitively
yields exactly J rows in `transactions` for that block, and receipt
fetches are issued exactly for those J transactions — the
non-matching ones are discarded before any receipt fetch. -/
theorem c5_filter_correctness (cfg : Config) (chain : Chain) (faults : Faults)
    (b : Block) (w : World)
    (hb : faults.blockStoreFails b.number = false)
    (hnofail : ∀ tx ∈ relevantTxs cfg b.transactions, faults.txStoreFails tx.hash = false)
    (hnodup : ((relevantTxs cfg b.transactions).map (fun tx => tx.hash)).Nodup)
    (hfresh : ∀ r ∈ w.db.transactions, r.blockNumber ≠ b.number) :
    ∃ w1, processBlock cfg chain faults b w = .ok w1 ∧
      ((w1.db.transactions.filter (fun r => r.blockNumber == b.number)).length
        = (relevantTxs cfg b.transactions).length) ∧
      (w1.receiptFetchTrace
        = w.receiptFetchTrace ++ (relevantTxs cfg b.transactions).map (fun tx => tx.hash)) := by
  rw [processBlock_ok cfg chain faults b w hb]
  refine ⟨_, rfl, ?_, ?_⟩
  · rw [(processContractEvents_frame cfg chain faults b.number _).2.1]
    by_cases he : b.transactions.isEmpty
    · rw [if_pos he]
      have hbt : b.transactions = [] := by simpa using he
      have hzero : w.db.transactions.filter (fun r => r.blockNumber == b.number) = [] := by
        rw [List.filter_eq_nil_iff]
        intro r hr
        simpa using hfresh r hr
      simp only [storeBlockRow]
      simp [hbt, relevantTxs, hzero]
    · rw [if_neg he]
      exact (processTransactions_count cfg chain faults b.transactions b
        { w with db := storeBlockRow w.db (blockRowOf b) } hnofail hnodup hfresh).1
  · rw [(processContractEvents_frame cfg chain faults b.number _).2.2.2]
    by_cases he : b.transactions.isEmpty
    · rw [if_pos he]
      have hbt : b.transactions = [] := by simpa using he
      simp [hbt, relevantTxs]
    · rw [if_neg he]
      exact (processTransactions_count cfg chain faults b.transactions b
        { w with db := storeBlockRow w.db (blockRowOf b) } hnofail hnodup hfresh).2

/-- Witness for C5: a block with three transactions of which exactly
one addresses the tracked contract `0xabc` (as `0xAbC`). -/
theorem c5_filter_correctness_witness :
    ∃ w1, processBlock c5Cfg c5Chain noFaults c5Block emptyWorld = .ok w1 ∧
      ((w1.db.transactions.filter (fun r => r.blockNumber == c5Block.number)).length
        = (relevantTxs c5Cfg c5Block.transactions).length) ∧
      (w1.receiptFetchTrace = emptyWorld.receiptFetchTrace
        ++ (relevantTxs c5Cfg c5Block.transactions).map (fun tx => tx.hash)) :=
  c5_filter_correctness c5Cfg c5Chain noFaults c5Block emptyWorld rfl
    (fun _ _ => rfl) (by decide) (fun r hr => absurd hr (List.not_mem_nil r))

/-- C6: `retry` makes up to `maxRetries` attempts (default 3),
sleeping `2^(attempt-1)` seconds after each failed attempt that is
retried; an exhausted failure is surfaced through
`Promise.allSettled` rather than thrown from the batch, so
`processBlocksBatch` behaves exactly like processing the fulfilled
fetches alone — failed blocks are dropped and the remaining K−1 stay
eligible for persistence. -/
theorem c6_retry_and_settle_all :
    (∀ (outcomes : Nat → Option Block) (maxRetries : Nat),
        (∀ i, outcomes i = none) →
        retryRun outcomes maxRetries
          = (none, (List.range (maxRetries - 1)).map fun i => 2 ^ i * 1000)) ∧
    (∀ (outcomes : Nat → Option Block) (b : Block) (maxRetries : Nat),
        outcomes 1 = some b → 1 ≤ maxRetries →
        retryRun outcomes maxRetries = (some b, [])) ∧
    (∀ (cfg : Config) (chain : Chain) (faults : Faults) (bns : List Int) (w : World),
        processBlocksBatch cfg chain faults bns w
          = processFetched cfg chain faults (bns.filterMap chain.blockAt) w) := by
  refine ⟨?_, ?_, ?_⟩
  · intro outcomes m h
    have h1 := retryAux_allfail outcomes h m 1 (le_refl 1)
    simpa [retryRun] using h1
  · intro outcomes b m h hm
    exact retryRun_first_success outcomes b h m hm
  · intro cfg chain faults bns w
    exact processBlocksBatch_eq cfg chain faults bns w

/-- Witness for C6: three all-failing attempts sleep 1s then 2s and
return the failure; a concrete batch with a missing block equals the
run over its fulfilled fetches. -/
theorem c6_retry_and_settle_all_witness :
    retryRun (fun _ => (none : Option Block)) 3 = (none, [1000, 2000]) ∧
    processBlocksBatch c7Cfg c7Chain noFaults [1, 2, 3] emptyWorld
      = processFetched c7Cfg c7Chain noFaults ([1, 2, 3].filterMap c7Chain.blockAt)
          emptyWorld :=
  ⟨c6_retry_and_settle_all.1 (fun _ => none) 3 (fun _ => rfl),
   c6_retry_and_settle_all.2.2 c7Cfg c7Chain noFaults [1, 2, 3] emptyWorld⟩

/-- C7 as amended: event logs are fetched with one filtered-logs call
per block — `processContractEvents(n)` issues exactly the query
`(contractAddresses, n, n)` — not a single call covering the whole
range; each log's first topic is taken as the event signature and
resolved via the static table, with unresolved signatures mapped to
the `'Unknown'` sentinel. -/
theorem c7_amended_per_block_queries (cfg : Config) (chain : Chain) (faults : Faults)
    (n : Int) (w : World) (log : Log) :
    ((processContractEvents cfg chain faults n w).logQueryTrace
      = w.logQueryTrace ++ [(cfg.contractAddresses, n, n)]) ∧
    ((eventRowOf log).eventSignature = log.topics.head?) ∧
    ((eventRowOf log).eventName = (log.topics.head?.map getEventName).getD "Unknown") ∧
    (∀ sig : String,
        sig ≠ "0xddf252ad1be2c89b69c2b068fc378daa952ba7f163c4a11628f55a4df523b3ef" →
        sig ≠ "0x8c5be1e5ebec7d5bd14f71427d1e84f3dd0314c0f7b2291e5b200ac8c7c3b925" →
        getEventName sig = "Unknown") := by
  refine ⟨(processContractEvents_frame cfg chain faults n w).2.2.1, rfl, rfl, ?_⟩
  intro sig h1 h2
  simp [getEventName, h1, h2]

/-- Witness for the amended C7 at block 5 with an unknown signature. -/
theorem c7_amended_per_block_queries_witness :
    ((processContractEvents c7Cfg c7Chain noFaults 5 emptyWorld).logQueryTrace
      = [(["0xaa"], 5, 5)]) ∧
    getEventName "0xdead" = "Unknown" := by
  refine ⟨?_, (c7_amended_per_block_queries c7Cfg c7Chain noFaults 5 emptyWorld
    ⟨"0xt", 5, "0xb", 0, "0xaa", [], ""⟩).2.2.2 "0xdead" (by decide) (by decide)⟩
  have h := (c7_amended_per_block_queries c7Cfg c7Chain noFaults 5 emptyWorld
    ⟨"0xt", 5, "0xb", 0, "0xaa", [], ""⟩).1
  simpa using h

end ErcIndexer



